import Mathlib

/-!
Shallow embedding of `src/scripts/other/createemail/main.py` (a Paperless-NGX
report e-mailer) and proofs about its report-generation pipeline.

Modelling conventions:
* Python dicts for documents become structures with `Option` fields
  (`doc.get(k)` returning `None` maps to `none`).
* The ambient current date (`date.today()`) is an explicit parameter `today`,
  given as a proleptic-Gregorian ordinal (same numbering as Python's
  `date.toordinal`, 0001-01-01 = 1).
* `calculate_age` returns either a Python `int` or the string `"N/A"`; this
  two-branch value is the inductive `Age`.
* `datetime.strptime(s, "%Y-%m-%d")` is modelled by `parse_date`, following
  CPython's `_strptime` regular expressions (`%Y` = exactly four digits,
  `%m` = one or two digits valued 1..12, `%d` = one or two digits valued
  1..31, no leftover characters) followed by `date()` construction which
  additionally requires year ≥ 1 and day ≤ days-in-month.  Digits are
  modelled as ASCII digits.
* HTTP fetches become oracle parameters: `details : Int → Option DetailResp`
  for `GET /api/documents/<id>/` (with `none` = the guarded request failure
  that `safe_request` turns into `None`), and the tag pagination becomes the
  list of successive responses the `while` loop receives.
* Python's `sorted(..., reverse=True)` on possibly mixed `int`/`str` keys is
  modelled by a fallible stable insertion sort: a comparison between an `int`
  key and the `"N/A"` string key is a `TypeError`, i.e. `pyLt _ _ = none`,
  and the whole sort then fails.  (For key sequences on which every needed
  comparison is defined, any stable sort agrees with CPython's stable sort,
  since the stable sorted permutation of a list under a total preorder is
  unique; and CPython's sort raises whenever both key types occur, because
  every run it forms, and every merge it performs, compares an element
  against its neighbours, so the first int/str encounter raises.)
-/

set_option maxRecDepth 8192

namespace PaperlessEmail

/-- Python leap-year rule (`calendar.isleap`, used by `datetime.date`). -/
def isLeap (y : Nat) : Bool :=
  (y % 4 == 0 && y % 100 != 0) || y % 400 == 0

/-- Days in month `m` of year `y` (0 for out-of-range months). -/
def daysInMonth (y : Nat) : Nat → Nat
  | 1 => 31
  | 2 => if isLeap y then 29 else 28
  | 3 => 31
  | 4 => 30
  | 5 => 31
  | 6 => 30
  | 7 => 31
  | 8 => 31
  | 9 => 30
  | 10 => 31
  | 11 => 30
  | 12 => 31
  | _ => 0

/-- Days in year `y` strictly before month `m`. -/
def daysBeforeMonth (y : Nat) : Nat → Nat
  | 0 => 0
  | m + 1 => daysBeforeMonth y m + daysInMonth y m

/-- Proleptic-Gregorian ordinal of a date, as in Python's `date.toordinal`
(0001-01-01 has ordinal 1).  `timedelta.days` of a date difference is the
difference of ordinals. -/
def toOrdinal (y m d : Nat) : Nat :=
  365 * (y - 1) + (y - 1) / 4 - (y - 1) / 100 + (y - 1) / 400
    + daysBeforeMonth y m + d

/-- The calendar successor of a date, used to state that `toOrdinal` counts
elapsed whole days: each next calendar day has ordinal one larger. -/
def nextDate (y m d : Nat) : Nat × Nat × Nat :=
  if d < daysInMonth y m then (y, m, d + 1)
  else if m < 12 then (y, m + 1, 1)
  else (y + 1, 1, 1)

/-- Split a character list on the literal character `-` (the separator of the
`%Y-%m-%d` format). -/
def splitDash : List Char → List (List Char)
  | [] => [[]]
  | c :: cs =>
    if c = '-' then [] :: splitDash cs
    else
      match splitDash cs with
      | [] => [[c]]
      | p :: ps => (c :: p) :: ps

/-- Numeric value of a list of ASCII digits. -/
def digitsVal (cs : List Char) : Nat :=
  cs.foldl (fun a c => 10 * a + (c.toNat - 48)) 0

/-- Nonempty and all ASCII digits. -/
def allDigits (cs : List Char) : Bool :=
  !cs.isEmpty && cs.all Char.isDigit

/-- Model of `datetime.strptime(s, "%Y-%m-%d").date()`: `none` is the
`ValueError` path.  `%Y` is exactly four digits; `%m` and `%d` are one or two
digits with values 1..12 resp. 1..31 (CPython's `_strptime` patterns); the
whole string must be consumed; `date()` then requires year ≥ 1 and the day to
fit the month. -/
def parse_date (s : String) : Option (Nat × Nat × Nat) :=
  match splitDash s.toList with
  | [ys, ms, ds] =>
    if allDigits ys && ys.length == 4
        && allDigits ms && ms.length ≤ 2
        && allDigits ds && ds.length ≤ 2 then
      if 1 ≤ digitsVal ms ∧ digitsVal ms ≤ 12 ∧ 1 ≤ digitsVal ds
          ∧ digitsVal ds ≤ 31 ∧ 1 ≤ digitsVal ys
          ∧ digitsVal ds ≤ daysInMonth (digitsVal ys) (digitsVal ms) then
        some (digitsVal ys, digitsVal ms, digitsVal ds)
      else none
    else none
  | _ => none

/-- The value `calculate_age` returns: a Python `int` or the string
`"N/A"`. -/
inductive Age where
  | int : Int → Age
  | na : Age
deriving DecidableEq, Repr

/-- `calculate_age` (main.py lines 110-119): `"N/A"` on falsy input, `"N/A"`
on a `ValueError` from parsing, otherwise `(today - created_date).days`. -/
def calculate_age (today : Nat) (created_date_str : Option String) : Age :=
  match created_date_str with
  | none => .na
  | some s =>
    if s = "" then .na
    else
      match parse_date s with
      | none => .na
      | some (y, m, d) => .int ((today : Int) - (toOrdinal y m d : Int))

/-- A document record as consumed from the list response: `doc.get("id")`,
`doc.get("correspondent")`, `doc.get("tags", [])`, `doc.get("created_date")`. -/
structure Doc where
  id : Option Int
  correspondent : Option Int
  tags : List Int
  created_date : Option String
deriving DecidableEq, Repr

/-- A correspondent record as produced by `get_correspondents`
(`{"id": c["id"], "correspondent": c["name"]}`). -/
structure Correspondent where
  id : Int
  correspondent : String
deriving DecidableEq, Repr

/-- The JSON fields of a `GET /api/documents/<id>/` response that
`get_document_details` reads (each `none` when the key is absent). -/
structure DetailResp where
  original_file_name : Option String
  archived_file_name : Option String
  created_date : Option String

/-- `get_document_details` (main.py lines 121-131), with the HTTP layer as an
oracle: `details doc_id = none` models `safe_request` returning `None`. -/
def get_document_details (details : Int → Option DetailResp) (doc_id : Int) :
    String × String × Option String :=
  match details doc_id with
  | none => ("N/A", "N/A", none)
  | some r =>
    (r.original_file_name.getD "N/A", r.archived_file_name.getD "N/A",
      r.created_date)

/-- Python-dict assignment `m[k] = v` on an insertion-ordered association
list: overwrite in place if the key exists, else append. -/
def dinsert (m : List (Int × String)) (k : Int) (v : String) :
    List (Int × String) :=
  if m.any (fun p => p.1 == k) then
    m.map (fun p => if p.1 == k then (k, v) else p)
  else m ++ [(k, v)]

/-- Python-dict lookup `m.get(k)`. -/
def dget (m : List (Int × String)) (k : Int) : Option String :=
  (m.find? (fun p => p.1 == k)).map (·.2)

/-- The `corr_map` dict comprehension of `build_html_body` (line 152). -/
def mkCorrMap (cs : List Correspondent) : List (Int × String) :=
  cs.foldl (fun m c => dinsert m c.id c.correspondent) []

/-- `isinstance(age, int) and age > 30` (subject-line threshold,
main.py lines 143-147). -/
def isOver30 (a : Age) : Bool :=
  match a with
  | .int n => n > 30
  | .na => false

/-- The `over_30_count` sum of `build_subject_line`. -/
def over30_count (today : Nat) (docs : List Doc) : Nat :=
  docs.countP (fun doc => isOver30 (calculate_age today doc.created_date))

/-- `build_subject_line` (main.py lines 133-148). -/
def build_subject_line (today : Nat) (docs : List Doc) : String :=
  toString docs.length ++ " - files in need of attendance ("
    ++ toString (over30_count today docs) ++ " over 30days)"

/-- An ASCII apostrophe, used inside the HTML attribute strings. -/
def sq : String := String.singleton (Char.ofNat 39)

/-- The `age_str` formatting of `build_html_body` (lines 170-174): a red
span when the age is an int greater than 31, otherwise `str(age)`. -/
def format_age (a : Age) : String :=
  match a with
  | .int n =>
    if n > 31 then
      "<span style=" ++ sq ++ "color:red;" ++ sq ++ ">" ++ toString n
        ++ "</span>"
    else toString n
  | .na => "N/A"

/-- `corr_map.get(corr_id, "No Correspondent")` where `corr_id` may be the
JSON null (line 166); the dict is keyed by integer ids, so a null never
matches. -/
def corr_name_of (corr_map : List (Int × String)) (corr_id : Option Int) :
    String :=
  match corr_id with
  | none => "No Correspondent"
  | some cid => (dget corr_map cid).getD "No Correspondent"

/-- `tag_map.get(tid, f"Tag-{tid}")` (line 177). -/
def tag_label (tag_map : List (Int × String)) (tid : Int) : String :=
  (dget tag_map tid).getD ("Tag-" ++ toString tid)

/-- `", ".join(tag_names) if tag_names else "None"` (line 178). -/
def tags_str_of (tag_names : List String) : String :=
  if tag_names.isEmpty then "None" else String.intercalate ", " tag_names

/-- The per-document detail URL (line 181). -/
def detail_url_of (myurl : String) (doc_id : Int) : String :=
  myurl ++ "/documents/" ++ toString doc_id ++ "/"

/-- The correspondent hyperlink (line 182). -/
def corr_link_of (myurl : String) (doc_id : Int) (corr_name : String) :
    String :=
  "<a href=" ++ sq ++ detail_url_of myurl doc_id ++ sq ++ "><b>" ++ corr_name
    ++ "</b></a>"

/-- One `<li>` item (lines 185-193). -/
def mk_line (corr_link age_str tags_str original_file_name
    archived_file_name : String) : String :=
  "<br><li>" ++ corr_link ++ "<br>"
    ++ "<b>Age (days)</b>: " ++ age_str ++ "<br>"
    ++ "<b>Tags</b>: " ++ tags_str ++ "<br>"
    ++ "<b>Original File</b>: " ++ original_file_name ++ "<br>"
    ++ "<b>Archived File</b>: " ++ archived_file_name ++ "<br>"
    ++ "</li>"

/-- Python truthiness of `doc.get("id")`: `None` and `0` are falsy. -/
def idFalsy : Option Int → Bool
  | none => true
  | some n => n == 0

/-- The body of the rendering loop of `build_html_body` (lines 159-193) for
one document: `none` is the silent `continue` on a falsy id, `some line` the
appended item. -/
def process_doc (today : Nat) (myurl : String)
    (details : Int → Option DetailResp)
    (corr_map tag_map : List (Int × String)) (doc : Doc) : Option String :=
  match doc.id with
  | none => none
  | some doc_id =>
    if doc_id == 0 then none
    else
      let corr_name := corr_name_of corr_map doc.correspondent
      let fetched := get_document_details details doc_id
      let age := calculate_age today fetched.2.2
      let age_str := format_age age
      let tag_names := doc.tags.map (tag_label tag_map)
      let tags_str := tags_str_of tag_names
      let corr_link := corr_link_of myurl doc_id corr_name
      some (mk_line corr_link age_str tags_str fetched.1 fetched.2.1)

/-- The sort key of line 154: `calculate_age(d.get("created_date"))`. -/
def ageKey (today : Nat) (d : Doc) : Age := calculate_age today d.created_date

/-- Python 3 `<` on the values `calculate_age` can return: defined between
two ints and between two `"N/A"` strings, a `TypeError` (`none`) between an
int and a string. -/
def pyLt : Age → Age → Option Bool
  | .int a, .int b => some (a < b)
  | .na, .na => some false
  | _, _ => none

/-- Fallible stable insertion into a descending-sorted list, driven by
`pyLt` on the sort keys: the new element is placed before the first strictly
smaller key, after all equal keys; an undefined comparison aborts the sort
(`TypeError`). -/
def insertD (today : Nat) (x : Doc) : List Doc → Except Unit (List Doc)
  | [] => .ok [x]
  | y :: ys =>
    match pyLt (ageKey today y) (ageKey today x) with
    | none => .error ()
    | some true => .ok (x :: y :: ys)
    | some false => (insertD today x ys).map (fun r => y :: r)

/-- Fallible stable sort (model of line 154's
`sorted(docs, key=..., reverse=True)`): fold the fallible insertion over the
input. -/
def sortAux (today : Nat) : List Doc → List Doc → Except Unit (List Doc)
  | [], acc => .ok acc
  | d :: ds, acc =>
    match insertD today d acc with
    | .error e => .error e
    | .ok acc2 => sortAux today ds acc2

/-- `sorted(docs, key=lambda d: calculate_age(d.get("created_date")),
reverse=True)`, failing with the `TypeError` Python 3 raises when an int key
meets the `"N/A"` string key. -/
def sortDocs (today : Nat) (docs : List Doc) : Except Unit (List Doc) :=
  sortAux today docs []

/-- The message printed by the per-document `except` clause (line 195). -/
def errMsg (doc : Doc) (e : String) : String :=
  "Error processing document ID "
    ++ (match doc.id with
        | none => "unknown"
        | some i => toString i)
    ++ ": " ++ e

/-- The `for doc in sorted_docs: try ... except` loop (lines 157-196),
generic in the per-document step so that an arbitrary in-loop exception can
be expressed: returns the collected `lines` and the printed error
messages. -/
def render_loop (step : Doc → Except String (Option String)) :
    List Doc → List String × List String
  | [] => ([], [])
  | d :: ds =>
    match step d with
    | .ok none => render_loop step ds
    | .ok (some line) =>
      let rest := render_loop step ds
      (line :: rest.1, rest.2)
    | .error e =>
      let rest := render_loop step ds
      (rest.1, errMsg d e :: rest.2)

/-- The rendered `lines` of the loop. -/
def linesOf (step : Doc → Except String (Option String)) (l : List Doc) :
    List String :=
  (render_loop step l).1

/-- The error messages printed by the loop. -/
def logsOf (step : Doc → Except String (Option String)) (l : List Doc) :
    List String :=
  (render_loop step l).2

/-- The empty-report placeholder item (line 199). -/
def placeholder : String := "<li>No documents found.</li>"

/-- The surrounding HTML template (lines 201-214), with `''.join(lines)`
spliced in. -/
def htmlWrap (items : String) : String :=
  "\n<html>\n  <head>\n    <meta charset=\"utf-8\"/>\n  </head>\n  <body>\n    <p>Here are your documents:</p>\n    <ul>\n      "
    ++ items
    ++ "\n    </ul>\n    <p>Your trusted PaperlessNGX Runner</p>\n  </body>\n</html>\n"

/-- Lines 198-215: fall back to the placeholder when no item was rendered,
then join and wrap. -/
def renderBody (lines : List String) : String :=
  htmlWrap (String.join (if lines.isEmpty then [placeholder] else lines))

/-- `build_html_body` generic in the loop body: sort (which may raise a
`TypeError` that nothing in `build_html_body` catches), run the guarded
per-document loop, wrap.  Returns the HTML body and the printed error
messages. -/
def build_html_body_with (today : Nat)
    (step : Doc → Except String (Option String)) (docs : List Doc) :
    Except Unit (String × List String) :=
  match sortDocs today docs with
  | .error _ => .error ()
  | .ok sorted_docs =>
    let r := render_loop step sorted_docs
    .ok (renderBody r.1, r.2)

/-- The concrete loop body of main.py, which never raises in this model. -/
def concrete_step (today : Nat) (myurl : String)
    (details : Int → Option DetailResp)
    (corr_map tag_map : List (Int × String)) (doc : Doc) :
    Except String (Option String) :=
  .ok (process_doc today myurl details corr_map tag_map doc)

/-- `build_html_body` (main.py lines 150-215). -/
def build_html_body (today : Nat) (myurl : String)
    (details : Int → Option DetailResp) (docs : List Doc)
    (correspondents : List Correspondent) (tag_map : List (Int × String)) :
    Except Unit (String × List String) :=
  build_html_body_with today
    (concrete_step today myurl details (mkCorrMap correspondents) tag_map)
    docs

/-- A tag record of a tags page; `none` fields model absent keys. -/
structure TagRec where
  id : Option Int
  name : Option String

/-- One page of `GET /api/tags/`: its `results` and whether a `next` link is
present (truthy). -/
structure TagPage where
  results : List TagRec
  next : Bool

/-- The id→name pairs a page contributes (records with both keys, in
order). -/
def page_pairs (p : TagPage) : List (Int × String) :=
  p.results.filterMap (fun t =>
    match t.id, t.name with
    | some i, some n => some (i, n)
    | _, _ => none)

/-- The inner `for t in data.get("results", [])` accumulation of
`get_tags_map` (lines 90-92). -/
def insert_page (m : List (Int × String)) (p : TagPage) :
    List (Int × String) :=
  (page_pairs p).foldl (fun acc kv => dinsert acc kv.1 kv.2) m

/-- The `while url:` loop of `get_tags_map` (lines 84-95), driven by the
sequence of responses the successive fetches return: `none` is a failed
fetch (`break`), a page with `next = false` ends the loop; if the response
sequence runs out the accumulated map stands for what was collected. -/
def tags_loop : List (Option TagPage) → List (Int × String) →
    List (Int × String)
  | [], acc => acc
  | none :: _, acc => acc
  | some p :: rest, acc =>
    let acc2 := insert_page acc p
    if p.next then tags_loop rest acc2 else acc2

/-- `get_tags_map` (main.py lines 76-98) over a response sequence. -/
def get_tags_map (responses : List (Option TagPage)) :
    List (Int × String) :=
  tags_loop responses []

/-! ## Lemmas about the fallible stable sort -/

/-- Whether an `Age` is the int branch (Python `isinstance(age, int)`). -/
def isIntAge : Age → Bool
  | .int _ => true
  | .na => false

/-- Descending order between two documents as line 154 establishes it: the
key of the earlier document is not less than the key of the later one, and
the comparison is defined. -/
def descAt (today : Nat) (a b : Doc) : Prop :=
  pyLt (ageKey today a) (ageKey today b) = some false

theorem isIntAge_eq_true {a : Age} (h : isIntAge a = true) :
    ∃ n, a = .int n := by
  cases a with
  | int n => exact ⟨n, rfl⟩
  | na => simp [isIntAge] at h

theorem isIntAge_eq_false {a : Age} (h : isIntAge a = false) : a = .na := by
  cases a with
  | int n => simp [isIntAge] at h
  | na => rfl

theorem pyLt_isSome_of_same_class {a b : Age}
    (h : isIntAge a = isIntAge b) : (pyLt a b).isSome := by
  cases a <;> cases b <;> simp_all [pyLt, isIntAge]

theorem pyLt_eq_none_of_cross {a b : Age}
    (h : isIntAge a ≠ isIntAge b) : pyLt a b = none := by
  cases a <;> cases b <;> simp_all [pyLt, isIntAge]

theorem insertD_ok_perm {today : Nat} {x : Doc} :
    ∀ {l r : List Doc}, insertD today x l = .ok r → r.Perm (x :: l) := by
  intro l
  induction l with
  | nil =>
    intro r h
    simp only [insertD, Except.ok.injEq] at h
    subst h
    exact List.Perm.refl _
  | cons y ys ih =>
    intro r h
    simp only [insertD] at h
    cases hp : pyLt (ageKey today y) (ageKey today x) with
    | none => rw [hp] at h; exact absurd h (by simp)
    | some b =>
      rw [hp] at h
      cases b with
      | true =>
        simp only [Except.ok.injEq] at h
        subst h
        exact List.Perm.refl _
      | false =>
        cases hres : insertD today x ys with
        | error e => rw [hres] at h; simp [Except.map] at h
        | ok r' =>
          rw [hres] at h
          simp only [Except.map, Except.ok.injEq] at h
          subst h
          exact ((ih hres).cons y).trans (List.Perm.swap x y ys)

theorem insertD_ok_of_defined {today : Nat} {x : Doc} :
    ∀ {l : List Doc},
      (∀ y ∈ l, (pyLt (ageKey today y) (ageKey today x)).isSome) →
      ∃ r, insertD today x l = .ok r := by
  intro l
  induction l with
  | nil => exact fun _ => ⟨[x], rfl⟩
  | cons y ys ih =>
    intro h
    have hy := h y (List.mem_cons_self y ys)
    cases hp : pyLt (ageKey today y) (ageKey today x) with
    | none => rw [hp] at hy; simp at hy
    | some b =>
      cases b with
      | true => exact ⟨x :: y :: ys, by simp [insertD, hp]⟩
      | false =>
        obtain ⟨r', hr'⟩ := ih (fun z hz => h z (List.mem_cons_of_mem y hz))
        exact ⟨y :: r', by simp [insertD, hp, hr', Except.map]⟩

theorem insertD_mem {today : Nat} {x : Doc} {l r : List Doc}
    (h : insertD today x l = .ok r) {z : Doc} (hz : z ∈ r) :
    z = x ∨ z ∈ l := by
  have := (insertD_ok_perm h).mem_iff.mp hz
  simpa using this

theorem insertD_pairwise_int {today : Nat} {x : Doc} :
    ∀ {l r : List Doc},
      (∀ y ∈ l, isIntAge (ageKey today y) = true) →
      isIntAge (ageKey today x) = true →
      l.Pairwise (descAt today) →
      insertD today x l = .ok r →
      r.Pairwise (descAt today) := by
  intro l
  induction l with
  | nil =>
    intro r _ _ _ h
    simp only [insertD, Except.ok.injEq] at h
    subst h
    simp
  | cons y ys ih =>
    intro r hl hx hp h
    obtain ⟨a, ha⟩ := isIntAge_eq_true hx
    obtain ⟨b, hb⟩ := isIntAge_eq_true (hl y (List.mem_cons_self y ys))
    simp only [insertD] at h
    cases hcmp : pyLt (ageKey today y) (ageKey today x) with
    | none => rw [hcmp] at h; exact absurd h (by simp)
    | some c =>
      rw [hcmp] at h
      cases c with
      | true =>
        simp only [Except.ok.injEq] at h
        subst h
        have hba : b < a := by
          rw [ha, hb] at hcmp
          simpa [pyLt] using hcmp
        refine List.Pairwise.cons ?_ hp
        intro z hz
        rcases List.mem_cons.mp hz with hzy | hzys
        · subst hzy
          have : ¬ a < b := by omega
          simp [descAt, ha, hb, pyLt, this]
        · have hyz := (List.pairwise_cons.mp hp).1 z hzys
          obtain ⟨cz, hcz⟩ :=
            isIntAge_eq_true (hl z (List.mem_cons_of_mem y hzys))
          have hbz : ¬ b < cz := by
            have hyz' : pyLt (ageKey today y) (ageKey today z) = some false :=
              hyz
            rw [hb, hcz] at hyz'
            simpa [pyLt] using hyz'
          have : ¬ a < cz := by omega
          simp [descAt, ha, hcz, pyLt, this]
      | false =>
        cases hres : insertD today x ys with
        | error e => rw [hres] at h; simp [Except.map] at h
        | ok r' =>
          rw [hres] at h
          simp only [Except.map, Except.ok.injEq] at h
          subst h
          refine List.Pairwise.cons ?_
            (ih (fun z hz => hl z (List.mem_cons_of_mem y hz)) hx
              (List.pairwise_cons.mp hp).2 hres)
          intro z hz
          rcases insertD_mem hres hz with hzx | hzys
          · subst hzx
            exact hcmp
          · exact (List.pairwise_cons.mp hp).1 z hzys

theorem sortAux_ok_perm {today : Nat} :
    ∀ {ds acc r : List Doc},
      sortAux today ds acc = .ok r → r.Perm (ds ++ acc) := by
  intro ds
  induction ds with
  | nil =>
    intro acc r h
    simp only [sortAux, Except.ok.injEq] at h
    subst h
    simp
  | cons d ds ih =>
    intro acc r h
    simp only [sortAux] at h
    cases hres : insertD today d acc with
    | error e => rw [hres] at h; exact absurd h (by simp)
    | ok acc2 =>
      rw [hres] at h
      have hperm := (ih h).trans ((insertD_ok_perm hres).append_left ds)
      exact hperm.trans (List.perm_middle)

theorem sortDocs_perm {today : Nat} {docs l : List Doc}
    (h : sortDocs today docs = .ok l) : l.Perm docs := by
  have h' : sortAux today docs [] = .ok l := h
  have := sortAux_ok_perm h'
  simpa using this

theorem sortAux_ok_int {today : Nat} :
    ∀ {ds acc : List Doc},
      (∀ y ∈ ds ++ acc, isIntAge (ageKey today y) = true) →
      acc.Pairwise (descAt today) →
      ∃ r, sortAux today ds acc = .ok r ∧ r.Pairwise (descAt today) := by
  intro ds
  induction ds with
  | nil =>
    intro acc _ hp
    exact ⟨acc, rfl, hp⟩
  | cons d ds ih =>
    intro acc h hp
    have hd : isIntAge (ageKey today d) = true := h d (by simp)
    have hacc : ∀ y ∈ acc, isIntAge (ageKey today y) = true :=
      fun y hy => h y (by simp [hy])
    obtain ⟨r, hr⟩ := @insertD_ok_of_defined today d acc
      (fun y hy =>
        pyLt_isSome_of_same_class ((hacc y hy).trans hd.symm))
    have hrp : r.Pairwise (descAt today) :=
      insertD_pairwise_int hacc hd hp hr
    have hrint : ∀ y ∈ r, isIntAge (ageKey today y) = true := by
      intro z hz
      rcases insertD_mem hr hz with hzd | hza
      · subst hzd; exact hd
      · exact hacc z hza
    obtain ⟨r2, hr2, hr2p⟩ := @ih r
      (fun y hy => by
        rcases List.mem_append.mp hy with hyl | hyr
        · exact h y (by simp [hyl])
        · exact hrint y hyr)
      hrp
    exact ⟨r2, by simp [sortAux, hr, hr2], hr2p⟩

theorem sortDocs_ok_int {today : Nat} {docs : List Doc}
    (h : ∀ d ∈ docs, isIntAge (ageKey today d) = true) :
    ∃ l, sortDocs today docs = .ok l ∧ l.Perm docs ∧
      l.Pairwise (descAt today) := by
  obtain ⟨l, hl, hlp⟩ := @sortAux_ok_int today docs [] (by simpa using h)
    (by simp)
  exact ⟨l, hl, sortDocs_perm hl, hlp⟩

theorem insertD_na {today : Nat} {x : Doc} :
    ∀ {l : List Doc},
      (∀ y ∈ l, ageKey today y = .na) → ageKey today x = .na →
      insertD today x l = .ok (l ++ [x]) := by
  intro l
  induction l with
  | nil => intro _ _; rfl
  | cons y ys ih =>
    intro hl hx
    have hy : ageKey today y = .na := hl y (by simp)
    simp only [insertD, hy, hx, pyLt]
    rw [ih (fun z hz => hl z (by simp [hz])) hx]
    simp [Except.map]

theorem sortAux_na {today : Nat} :
    ∀ {ds acc : List Doc},
      (∀ y ∈ ds ++ acc, ageKey today y = .na) →
      sortAux today ds acc = .ok (acc ++ ds) := by
  intro ds
  induction ds with
  | nil => intro acc _; simp [sortAux]
  | cons d ds ih =>
    intro acc h
    have hins : insertD today d acc = .ok (acc ++ [d]) :=
      insertD_na (fun y hy => h y (by simp [hy])) (h d (by simp))
    have hrec : sortAux today ds (acc ++ [d]) = .ok ((acc ++ [d]) ++ ds) :=
      ih (by
        intro y hy
        apply h
        simp only [List.mem_append, List.mem_cons, List.mem_singleton]
          at hy ⊢
        tauto)
    simp [sortAux, hins, hrec]

theorem pairwise_descAt_na {today : Nat} {l : List Doc}
    (h : ∀ y ∈ l, ageKey today y = .na) : l.Pairwise (descAt today) := by
  induction l with
  | nil => simp
  | cons y ys ih =>
    refine List.Pairwise.cons ?_ (ih fun z hz => h z (by simp [hz]))
    intro z hz
    simp [descAt, h y (by simp), h z (by simp [hz]), pyLt]

theorem sortAux_error_of_mixed {today : Nat} :
    ∀ (ds acc : List Doc) (c : Bool),
      (∀ y ∈ acc, isIntAge (ageKey today y) = c) →
      (∃ a ∈ ds ++ acc, isIntAge (ageKey today a) = true) →
      (∃ b ∈ ds ++ acc, isIntAge (ageKey today b) = false) →
      sortAux today ds acc = .error () := by
  intro ds
  induction ds with
  | nil =>
    intro acc c hhomo ⟨a, ha, hat⟩ ⟨b, hb, hbf⟩
    simp only [List.nil_append] at ha hb
    rw [hhomo a ha] at hat
    rw [hhomo b hb] at hbf
    subst hat
    exact absurd hbf (by simp)
  | cons d ds ih =>
    intro acc c hhomo hint hna
    cases acc with
    | nil =>
      have step : sortAux today (d :: ds) [] = sortAux today ds [d] := by
        simp [sortAux, insertD]
      rw [step]
      refine ih [d] (isIntAge (ageKey today d)) (by simp) ?_ ?_
      · obtain ⟨a, ha, hat⟩ := hint
        refine ⟨a, ?_, hat⟩
        rcases List.mem_cons.mp (by simpa using ha) with h1 | h2
        · simp [h1]
        · simp [h2]
      · obtain ⟨b, hb, hbf⟩ := hna
        refine ⟨b, ?_, hbf⟩
        rcases List.mem_cons.mp (by simpa using hb) with h1 | h2
        · simp [h1]
        · simp [h2]
    | cons y ys =>
      by_cases hdc : isIntAge (ageKey today d) = c
      · obtain ⟨r, hr⟩ := insertD_ok_of_defined
          (x := d) (l := y :: ys)
          (fun z hz =>
            pyLt_isSome_of_same_class ((hhomo z hz).trans hdc.symm))
        have hhomo2 : ∀ z ∈ r, isIntAge (ageKey today z) = c := by
          intro z hz
          rcases insertD_mem hr hz with hzd | hza
          · subst hzd; exact hdc
          · exact hhomo z hza
        have hd_mem : d ∈ r := (insertD_ok_perm hr).mem_iff.mpr (by simp)
        have hmem : ∀ z ∈ (d :: ds) ++ y :: ys, z ∈ ds ++ r := by
          intro z hz
          rcases List.mem_append.mp hz with h1 | h2
          · rcases List.mem_cons.mp h1 with h3 | h4
            · subst h3; exact List.mem_append.mpr (.inr hd_mem)
            · exact List.mem_append.mpr (.inl h4)
          · exact List.mem_append.mpr
              (.inr ((insertD_ok_perm hr).mem_iff.mpr (by simp [h2])))
        simp only [sortAux, hr]
        refine ih r c hhomo2 ?_ ?_
        · obtain ⟨a, ha, hat⟩ := hint
          exact ⟨a, hmem a ha, hat⟩
        · obtain ⟨b, hb, hbf⟩ := hna
          exact ⟨b, hmem b hb, hbf⟩
      · have hy : isIntAge (ageKey today y) = c := hhomo y (by simp)
        have hcross : pyLt (ageKey today y) (ageKey today d) = none :=
          pyLt_eq_none_of_cross (by rw [hy]; exact fun h => hdc h.symm)
        simp [sortAux, insertD, hcross]

theorem sortDocs_error_of_mixed {today : Nat} {docs : List Doc}
    (hint : ∃ a ∈ docs, isIntAge (ageKey today a) = true)
    (hna : ∃ b ∈ docs, isIntAge (ageKey today b) = false) :
    sortDocs today docs = .error () := by
  refine sortAux_error_of_mixed docs [] true (by simp) ?_ ?_
  · simpa using hint
  · simpa using hna

/-! ## Lemmas about the rendering loop -/

theorem render_loop_append (step : Doc → Except String (Option String)) :
    ∀ (l1 l2 : List Doc),
      render_loop step (l1 ++ l2) =
        ((render_loop step l1).1 ++ (render_loop step l2).1,
          (render_loop step l1).2 ++ (render_loop step l2).2) := by
  intro l1 l2
  induction l1 with
  | nil => simp [render_loop]
  | cons d ds ih =>
    simp only [List.cons_append, render_loop]
    cases step d with
    | ok o =>
      cases o with
      | none => simpa using ih
      | some line => simp [ih]
    | error e => simp [ih]

theorem linesOf_concrete (today : Nat) (myurl : String)
    (details : Int → Option DetailResp)
    (corr_map tag_map : List (Int × String)) :
    ∀ l : List Doc,
      linesOf (concrete_step today myurl details corr_map tag_map) l =
        l.filterMap (process_doc today myurl details corr_map tag_map) := by
  intro l
  induction l with
  | nil => rfl
  | cons d ds ih =>
    simp only [linesOf, render_loop, concrete_step, List.filterMap_cons]
      at ih ⊢
    cases process_doc today myurl details corr_map tag_map d with
    | none => exact ih
    | some line => simpa using ih

theorem logsOf_concrete (today : Nat) (myurl : String)
    (details : Int → Option DetailResp)
    (corr_map tag_map : List (Int × String)) :
    ∀ l : List Doc,
      logsOf (concrete_step today myurl details corr_map tag_map) l = [] := by
  intro l
  induction l with
  | nil => rfl
  | cons d ds ih =>
    simp only [logsOf, render_loop, concrete_step] at ih ⊢
    cases process_doc today myurl details corr_map tag_map d with
    | none => exact ih
    | some line => simpa using ih

/-! ## Lemmas about the tag-map accumulation -/

theorem dinsert_of_not_mem {m : List (Int × String)} {k : Int} {v : String}
    (h : k ∉ m.map Prod.fst) : dinsert m k v = m ++ [(k, v)] := by
  have : m.any (fun p => p.1 == k) = false := by
    simp only [List.any_eq_false]
    intro p hp
    simp only [beq_iff_eq]
    intro hk
    exact h (List.mem_map.mpr ⟨p, hp, hk⟩)
  simp [dinsert, this]

theorem foldl_dinsert_append :
    ∀ (pairs m : List (Int × String)),
      ((m ++ pairs).map Prod.fst).Nodup →
      pairs.foldl (fun acc kv => dinsert acc kv.1 kv.2) m = m ++ pairs := by
  intro pairs
  induction pairs with
  | nil => intro m _; simp
  | cons kv ps ih =>
    intro m hnd
    have hk : kv.1 ∉ m.map Prod.fst := by
      simp only [List.map_append, List.nodup_append] at hnd
      intro hmem
      exact hnd.2.2 hmem (by simp)
    have hstep : dinsert m kv.1 kv.2 = m ++ [kv] := by
      rw [dinsert_of_not_mem hk]
    rw [List.foldl_cons, hstep, ih (m ++ [kv]) (by simpa using hnd)]
    simp

theorem insert_page_eq {m : List (Int × String)} {p : TagPage}
    (h : ((m ++ page_pairs p).map Prod.fst).Nodup) :
    insert_page m p = m ++ page_pairs p :=
  foldl_dinsert_append (page_pairs p) m h

theorem foldl_insert_page :
    ∀ (pages : List TagPage) (m : List (Int × String)),
      ((m ++ pages.flatMap page_pairs).map Prod.fst).Nodup →
      pages.foldl insert_page m = m ++ pages.flatMap page_pairs := by
  intro pages
  induction pages with
  | nil => intro m _; simp
  | cons p ps ih =>
    intro m hnd
    have hnd' : ((m ++ page_pairs p ++ ps.flatMap page_pairs).map
        Prod.fst).Nodup := by
      simpa [List.append_assoc] using hnd
    have h1 : ((m ++ page_pairs p).map Prod.fst).Nodup := by
      have hsplit := hnd'
      rw [List.map_append] at hsplit
      exact (List.nodup_append.mp hsplit).1
    rw [List.foldl_cons, insert_page_eq h1, ih (m ++ page_pairs p) hnd']
    simp [List.append_assoc]

theorem tags_loop_cons_some (p : TagPage) (rest : List (Option TagPage))
    (acc : List (Int × String)) (hp : p.next = true) :
    tags_loop (some p :: rest) acc = tags_loop rest (insert_page acc p) := by
  simp [tags_loop, hp]

theorem tags_loop_all_next :
    ∀ (pages : List TagPage) (acc : List (Int × String)),
      (∀ p ∈ pages.dropLast, p.next = true) →
      tags_loop (pages.map some) acc = pages.foldl insert_page acc := by
  intro pages
  induction pages with
  | nil => intro acc _; rfl
  | cons p ps ih =>
    intro acc h
    cases ps with
    | nil =>
      cases hn : p.next <;> simp [tags_loop, hn]
    | cons q qs =>
      have hcons : (p :: q :: qs).dropLast = p :: (q :: qs).dropLast := rfl
      have hp : p.next = true := h p (by rw [hcons]; simp)
      have hrest : ∀ r ∈ (q :: qs).dropLast, r.next = true := by
        intro r hr
        exact h r (by rw [hcons]; simp [hr])
      rw [List.map_cons, tags_loop_cons_some p _ acc hp,
        ih (insert_page acc p) hrest]
      rfl

theorem tags_loop_partial :
    ∀ (pages : List TagPage) (acc : List (Int × String))
      (rest : List (Option TagPage)),
      (∀ p ∈ pages, p.next = true) →
      tags_loop (pages.map some ++ none :: rest) acc =
        pages.foldl insert_page acc := by
  intro pages
  induction pages with
  | nil => intro acc rest _; rfl
  | cons p ps ih =>
    intro acc rest h
    have hp : p.next = true := h p (by simp)
    rw [List.map_cons, List.cons_append, tags_loop_cons_some p _ acc hp,
      ih _ rest (fun r hr => h r (by simp [hr]))]
    rfl

/-! ## The ordinal counts elapsed whole days -/

theorem daysBeforeMonth_12 (y : Nat) :
    daysBeforeMonth y 12 = 334 + (if isLeap y then 1 else 0) := by
  cases hl : isLeap y <;>
    simp [daysBeforeMonth, daysInMonth, hl]

set_option maxHeartbeats 1000000 in
theorem toOrdinal_nextDate (y m d : Nat) (hy : 1 ≤ y) (hm1 : 1 ≤ m)
    (hm2 : m ≤ 12) (hd1 : 1 ≤ d) (hd2 : d ≤ daysInMonth y m) :
    toOrdinal (nextDate y m d).1 (nextDate y m d).2.1 (nextDate y m d).2.2 =
      toOrdinal y m d + 1 := by
  unfold nextDate
  by_cases hlt : d < daysInMonth y m
  · simp only [hlt, if_true]
    unfold toOrdinal
    omega
  · have hdeq : d = daysInMonth y m := by omega
    by_cases hmlt : m < 12
    · simp only [hlt, if_false, hmlt, if_true]
      have hdbm : daysBeforeMonth y (m + 1) =
          daysBeforeMonth y m + daysInMonth y m := rfl
      unfold toOrdinal
      omega
    · have hm12 : m = 12 := by omega
      subst hm12
      have hdim : daysInMonth y 12 = 31 := rfl
      have hd31 : d = 31 := by omega
      subst hd31
      rw [if_neg hlt, if_neg hmlt]
      show toOrdinal (y + 1) 1 1 = toOrdinal y 12 31 + 1
      have hdbm1 : daysBeforeMonth (y + 1) 1 = 0 := by
        simp [daysBeforeMonth, daysInMonth]
      have hleap : (isLeap y = true) ↔
          ((y % 4 = 0 ∧ ¬ y % 100 = 0) ∨ y % 400 = 0) := by
        simp [isLeap]
      by_cases hl : isLeap y = true
      · have hdbm12 : daysBeforeMonth y 12 = 335 := by
          rw [daysBeforeMonth_12, if_pos hl]
        have hyl := hleap.mp hl
        unfold toOrdinal
        rw [hdbm1, hdbm12]
        omega
      · have hdbm12 : daysBeforeMonth y 12 = 334 := by
          rw [daysBeforeMonth_12, if_neg hl]
        have hnl : ¬ ((y % 4 = 0 ∧ ¬ y % 100 = 0) ∨ y % 400 = 0) :=
          fun hcon => hl (hleap.mpr hcon)
        unfold toOrdinal
        rw [hdbm1, hdbm12]
        omega

/-! ## Helper lemmas about `calculate_age` -/

theorem parse_date_empty : parse_date "" = none := rfl

theorem parse_date_bounds {s : String} {y m d : Nat}
    (h : parse_date s = some (y, m, d)) :
    1 ≤ y ∧ 1 ≤ m ∧ m ≤ 12 ∧ 1 ≤ d ∧ d ≤ daysInMonth y m := by
  unfold parse_date at h
  split at h
  · split at h
    · split at h
      · rename_i hcond
        simp only [Option.some.injEq, Prod.mk.injEq] at h
        obtain ⟨hy, hm, hd⟩ := h
        subst hy
        subst hm
        subst hd
        exact ⟨hcond.2.2.2.2.1, hcond.1, hcond.2.1, hcond.2.2.1,
          hcond.2.2.2.2.2⟩
      · exact absurd h (by simp)
    · exact absurd h (by simp)
  · exact absurd h (by simp)

theorem calculate_age_parse {today : Nat} {s : String} {y m d : Nat}
    (h : parse_date s = some (y, m, d)) :
    calculate_age today (some s) =
      Age.int ((today : Int) - (toOrdinal y m d : Int)) := by
  have hs : ¬ s = "" := by
    intro hs
    subst hs
    rw [parse_date_empty] at h
    exact Option.noConfusion h
  simp [calculate_age, hs, h]

theorem calculate_age_parse_none {today : Nat} {s : String}
    (h : parse_date s = none) :
    calculate_age today (some s) = Age.na := by
  by_cases hs : s = "" <;> simp [calculate_age, hs, h]

/-! ## The claims -/

/-- Claim C4: `calculate_age(None)`, `calculate_age("")`, and
`calculate_age` of any string that does not parse as `YYYY-MM-DD` all return
the `"N/A"` sentinel (the function is total, so it never raises);
`calculate_age` of a valid `YYYY-MM-DD` string returns the exact integer
number of elapsed whole days between that date and the current date — the
ordinal difference, where `toOrdinal` advances by exactly one on each
calendar successor day. -/
theorem claim_C4 (today : Nat) (s : String) (y m d : Nat) :
    calculate_age today none = Age.na
    ∧ calculate_age today (some "") = Age.na
    ∧ (parse_date s = none → calculate_age today (some s) = Age.na)
    ∧ (parse_date s = some (y, m, d) →
        calculate_age today (some s) =
          Age.int ((today : Int) - (toOrdinal y m d : Int))
        ∧ 1 ≤ y ∧ 1 ≤ m ∧ m ≤ 12 ∧ 1 ≤ d ∧ d ≤ daysInMonth y m)
    ∧ (1 ≤ y → 1 ≤ m → m ≤ 12 → 1 ≤ d → d ≤ daysInMonth y m →
        toOrdinal (nextDate y m d).1 (nextDate y m d).2.1
          (nextDate y m d).2.2 = toOrdinal y m d + 1) := by
  refine ⟨rfl, rfl, fun h => calculate_age_parse_none h, fun h => ?_,
    fun h1 h2 h3 h4 h5 => toOrdinal_nextDate y m d h1 h2 h3 h4 h5⟩
  exact ⟨calculate_age_parse h, parse_date_bounds h⟩

/-- Witness for C4: `"2020-01-01"` against the fixed today 2020-03-01 gives
exactly 60 elapsed days (a leap February), and the ordinal steps by one
across the 2020→2021 year boundary. -/
theorem claim_C4_witness :
    calculate_age (toOrdinal 2020 3 1) (some "2020-01-01") = Age.int 60
    ∧ toOrdinal 2021 1 1 = toOrdinal 2020 12 31 + 1 := by
  constructor
  · have h4 := (claim_C4 (toOrdinal 2020 3 1) "2020-01-01" 2020 1 1).2.2.2.1
      (by decide)
    rw [h4.1]
    decide
  · have h5 := (claim_C4 0 "" 2020 12 31).2.2.2.2 (by decide) (by decide)
      (by decide) (by decide) (by decide)
    exact h5

/-- Claim C10: `calculate_age` of a valid date strictly after the current
date is a negative integer, not `"N/A"`; such a document is not counted by
the subject line's over-30 predicate and is rendered plain (no red span) by
the body's age formatting. -/
theorem claim_C10 (today : Nat) (s : String) (y m d : Nat) (docs : List Doc)
    (doc : Doc) (hp : parse_date s = some (y, m, d))
    (hfut : today < toOrdinal y m d) (hcd : doc.created_date = some s) :
    ∃ n : Int, n < 0
      ∧ calculate_age today (some s) = Age.int n
      ∧ isOver30 (Age.int n) = false
      ∧ format_age (Age.int n) = toString n
      ∧ over30_count today (doc :: docs) = over30_count today docs := by
  refine ⟨(today : Int) - (toOrdinal y m d : Int), ?_, calculate_age_parse hp,
    ?_, ?_, ?_⟩
  · have hc : (today : Int) < (toOrdinal y m d : Int) := by exact_mod_cast hfut
    omega
  · have hc : (today : Int) < (toOrdinal y m d : Int) := by exact_mod_cast hfut
    simp only [isOver30, decide_eq_false_iff_not]
    omega
  · have hc : (today : Int) < (toOrdinal y m d : Int) := by exact_mod_cast hfut
    simp only [format_age]
    rw [if_neg (by omega)]
  · have hc : (today : Int) < (toOrdinal y m d : Int) := by exact_mod_cast hfut
    have hage : calculate_age today doc.created_date =
        Age.int ((today : Int) - (toOrdinal y m d : Int)) := by
      rw [hcd]
      exact calculate_age_parse hp
    simp only [over30_count, List.countP_cons, hage]
    have : isOver30 (Age.int ((today : Int) - (toOrdinal y m d : Int)))
        = false := by
      simp only [isOver30, decide_eq_false_iff_not]
      omega
    simp [this]

/-- Witness for C10: a document dated 2021-01-01 seen from 2020-03-01. -/
theorem claim_C10_witness :
    ∃ n : Int, n < 0
      ∧ calculate_age 737485 (some "2021-01-01") = Age.int n
      ∧ isOver30 (Age.int n) = false
      ∧ format_age (Age.int n) = toString n
      ∧ over30_count 737485
          (⟨some 1, none, [], some "2021-01-01"⟩ :: []) =
          over30_count 737485 [] :=
  claim_C10 737485 "2021-01-01" 2021 1 1 []
    ⟨some 1, none, [], some "2021-01-01"⟩ (by decide) (by decide) rfl

/-- Claim C3: the subject line is exactly
`"{total} - files in need of attendance ({over_30} over 30days)"`, where
`total` counts all fetched documents and `over_30` counts those with integer
age strictly greater than 30, while the body highlights only integer ages
strictly greater than 31 — so age exactly 31 is counted over-30 in the
subject but rendered plain in the body. -/
theorem claim_C3 (today : Nat) (docs : List Doc) (n : Int) :
    build_subject_line today docs =
      toString docs.length ++ " - files in need of attendance ("
        ++ toString (over30_count today docs) ++ " over 30days)"
    ∧ over30_count today docs =
        (docs.filter
          (fun d => isOver30 (calculate_age today d.created_date))).length
    ∧ (isOver30 (Age.int n) = true ↔ 30 < n)
    ∧ (30 < n → ¬ 31 < n →
        isOver30 (Age.int n) = true ∧ format_age (Age.int n) = toString n)
    ∧ (31 < n →
        format_age (Age.int n) =
          "<span style=" ++ sq ++ "color:red;" ++ sq ++ ">" ++ toString n
            ++ "</span>") := by
  refine ⟨rfl, ?_, ?_, ?_, ?_⟩
  · simp [over30_count, List.countP_eq_length_filter]
  · simp [isOver30]
  · intro h1 h2
    constructor
    · simp only [isOver30, decide_eq_true_eq]
      exact h1
    · simp only [format_age]
      rw [if_neg h2]
  · intro h
    simp only [format_age]
    rw [if_pos h]

/-- Witness for C3: the empty-list subject format, and the 30/31 asymmetry
at ages 31 and 32. -/
theorem claim_C3_witness :
    build_subject_line 737485 [] =
      "0 - files in need of attendance (0 over 30days)"
    ∧ isOver30 (Age.int 31) = true
    ∧ format_age (Age.int 31) = "31"
    ∧ format_age (Age.int 32) =
        "<span style=" ++ sq ++ "color:red;" ++ sq ++ ">"
          ++ toString (32 : Int) ++ "</span>" := by
  have h31 := claim_C3 737485 [] 31
  have h32 := claim_C3 737485 [] 32
  refine ⟨?_, ?_, ?_, ?_⟩
  · rw [h31.1]
    decide
  · exact (h31.2.2.2.1 (by decide) (by decide)).1
  · have := (h31.2.2.2.1 (by decide) (by decide)).2
    rw [this]
    decide
  · exact h32.2.2.2.2 (by decide)

/-- Claim C8: on an empty document set, `build_html_body` returns a body
whose list holds exactly the single `"No documents found."` placeholder item
(and no error logs), and `build_subject_line` returns exactly
`"0 - files in need of attendance (0 over 30days)"`. -/
theorem claim_C8 (today : Nat) (myurl : String)
    (details : Int → Option DetailResp) (corrs : List Correspondent)
    (tag_map : List (Int × String)) :
    build_html_body today myurl details [] corrs tag_map =
      .ok (htmlWrap placeholder, [])
    ∧ build_subject_line today [] =
        "0 - files in need of attendance (0 over 30days)" := by
  refine ⟨rfl, ?_⟩
  have h0 : build_subject_line today [] =
      toString (0 : Nat) ++ " - files in need of attendance ("
        ++ toString (0 : Nat) ++ " over 30days)" := rfl
  rw [h0]
  decide

/-- Claim C9: a document whose id is missing or falsy (e.g. `0`) is silently
skipped by the rendering loop — the step yields no line independently of the
detail oracle (so no detail fetch can influence it), and no error message is
logged — yet the document still counts towards the subject line's total and,
if its age qualifies, its over-30 count. -/
theorem claim_C9 (today : Nat) (myurl : String)
    (details details2 : Int → Option DetailResp)
    (corr_map tag_map : List (Int × String)) (doc : Doc) (ds : List Doc)
    (hf : idFalsy doc.id = true) :
    process_doc today myurl details corr_map tag_map doc = none
    ∧ process_doc today myurl details corr_map tag_map doc =
        process_doc today myurl details2 corr_map tag_map doc
    ∧ render_loop (concrete_step today myurl details corr_map tag_map)
        [doc] = ([], [])
    ∧ build_subject_line today (doc :: ds) =
        toString (ds.length + 1) ++ " - files in need of attendance ("
          ++ toString (over30_count today ds +
            if isOver30 (calculate_age today doc.created_date) then 1
            else 0) ++ " over 30days)" := by
  have hnone : ∀ dt : Int → Option DetailResp,
      process_doc today myurl dt corr_map tag_map doc = none := by
    intro dt
    cases hid : doc.id with
    | none => simp [process_doc, hid]
    | some i =>
      have hz : (i == 0) = true := by simpa [idFalsy, hid] using hf
      simp [process_doc, hid, hz]
  refine ⟨hnone details, (hnone details).trans (hnone details2).symm, ?_, ?_⟩
  · simp [render_loop, concrete_step, hnone details]
  · simp [build_subject_line, over30_count, List.countP_cons]

/-- Witness for C9: a document with id 0 and age 60 — skipped by the loop
but counted (also as over-30) in the subject. -/
theorem claim_C9_witness :
    process_doc 737485 "u" (fun _ => none) [] []
      ⟨some 0, none, [], some "2020-01-01"⟩ = none
    ∧ render_loop (concrete_step 737485 "u" (fun _ => none) [] [])
        [⟨some 0, none, [], some "2020-01-01"⟩] = ([], [])
    ∧ build_subject_line 737485 [⟨some 0, none, [], some "2020-01-01"⟩] =
        "1 - files in need of attendance (1 over 30days)" := by
  have h := claim_C9 737485 "u" (fun _ => none) (fun _ => none) [] []
    ⟨some 0, none, [], some "2020-01-01"⟩ [] (by decide)
  refine ⟨h.1, h.2.2.1, ?_⟩
  rw [h.2.2.2]
  decide

/-- Claim C7: in the rendered item, a null correspondent id or one absent
from the correspondent map yields the name `"No Correspondent"`; a tag id
absent from the tag map is rendered as `"Tag-<id>"` (no tag is dropped: the
label list has one entry per tag id); an empty tag list renders as
`"None"`; and the rendered line of `build_html_body`'s loop is built from
exactly these resolutions. -/
theorem claim_C7 (today : Nat) (myurl : String)
    (details : Int → Option DetailResp)
    (corr_map tag_map : List (Int × String)) (doc : Doc) (i cid tid : Int)
    (hid : doc.id = some i) (hnz : ¬ i = 0) :
    corr_name_of corr_map none = "No Correspondent"
    ∧ (dget corr_map cid = none →
        corr_name_of corr_map (some cid) = "No Correspondent")
    ∧ (dget tag_map tid = none →
        tag_label tag_map tid = "Tag-" ++ toString tid)
    ∧ (doc.tags.map (tag_label tag_map)).length = doc.tags.length
    ∧ tags_str_of [] = "None"
    ∧ process_doc today myurl details corr_map tag_map doc =
        some (mk_line
          (corr_link_of myurl i (corr_name_of corr_map doc.correspondent))
          (format_age
            (calculate_age today (get_document_details details i).2.2))
          (tags_str_of (doc.tags.map (tag_label tag_map)))
          (get_document_details details i).1
          (get_document_details details i).2.1) := by
  have hz : (i == 0) = false := by simpa using hnz
  refine ⟨rfl, ?_, ?_, by simp, rfl, ?_⟩
  · intro h
    simp [corr_name_of, h]
  · intro h
    simp [tag_label, h]
  · simp [process_doc, hid, hz]

/-- Witness for C7: unknown correspondent id 99 and unknown tag id 7 with
empty maps. -/
theorem claim_C7_witness :
    process_doc 737485 "u" (fun _ => none) [] []
      ⟨some 5, some 99, [7], none⟩ =
      some (mk_line (corr_link_of "u" 5 "No Correspondent") "N/A" "Tag-7"
        "N/A" "N/A") := by
  have h := claim_C7 737485 "u" (fun _ => none) [] []
    ⟨some 5, some 99, [7], none⟩ 5 99 7 rfl (by decide)
  rw [h.2.2.2.2.2]
  decide

/-- Claim C6: when the detail fetch for a document fails,
`get_document_details` returns `("N/A", "N/A", None)` (it is total, never
raising), and the document still appears in the rendered report as an item
with Original File `"N/A"`, Archived File `"N/A"` and age `"N/A"`. -/
theorem claim_C6 (today : Nat) (myurl : String)
    (details : Int → Option DetailResp) (docs : List Doc)
    (corrs : List Correspondent) (tag_map : List (Int × String)) (doc : Doc)
    (i : Int) (sorted : List Doc) (hd : details i = none)
    (hid : doc.id = some i) (hnz : ¬ i = 0) (hmem : doc ∈ docs)
    (hs : sortDocs today docs = .ok sorted) :
    get_document_details details i = ("N/A", "N/A", none)
    ∧ process_doc today myurl details (mkCorrMap corrs) tag_map doc =
        some (mk_line
          (corr_link_of myurl i
            (corr_name_of (mkCorrMap corrs) doc.correspondent))
          "N/A" (tags_str_of (doc.tags.map (tag_label tag_map)))
          "N/A" "N/A")
    ∧ build_html_body today myurl details docs corrs tag_map =
        .ok (renderBody
          (linesOf (concrete_step today myurl details (mkCorrMap corrs)
            tag_map) sorted), [])
    ∧ mk_line (corr_link_of myurl i
          (corr_name_of (mkCorrMap corrs) doc.correspondent))
        "N/A" (tags_str_of (doc.tags.map (tag_label tag_map))) "N/A" "N/A"
        ∈ linesOf (concrete_step today myurl details (mkCorrMap corrs)
            tag_map) sorted := by
  have hz : (i == 0) = false := by simpa using hnz
  have h1 : get_document_details details i = ("N/A", "N/A", none) := by
    simp [get_document_details, hd]
  have hproc : process_doc today myurl details (mkCorrMap corrs) tag_map
      doc = some (mk_line
        (corr_link_of myurl i
          (corr_name_of (mkCorrMap corrs) doc.correspondent))
        "N/A" (tags_str_of (doc.tags.map (tag_label tag_map)))
        "N/A" "N/A") := by
    simp [process_doc, hid, hz, h1, calculate_age, format_age]
  refine ⟨h1, hproc, ?_, ?_⟩
  · simp only [build_html_body, build_html_body_with, hs]
    rw [show (render_loop (concrete_step today myurl details
        (mkCorrMap corrs) tag_map) sorted).2 = [] from
      logsOf_concrete today myurl details (mkCorrMap corrs) tag_map sorted]
    rfl
  · rw [linesOf_concrete]
    exact List.mem_filterMap.mpr
      ⟨doc, (sortDocs_perm hs).mem_iff.mpr hmem, hproc⟩

/-- Witness for C6: a single document whose detail fetch fails. -/
theorem claim_C6_witness :
    get_document_details (fun _ : Int => none) 3 = ("N/A", "N/A", none)
    ∧ mk_line (corr_link_of "u" 3 "No Correspondent") "N/A" "None" "N/A"
        "N/A"
        ∈ linesOf (concrete_step 737485 "u" (fun _ => none) (mkCorrMap [])
            []) [⟨some 3, none, [], none⟩] := by
  have h := claim_C6 737485 "u" (fun _ => none) [⟨some 3, none, [], none⟩]
    [] [] ⟨some 3, none, [], none⟩ 3 [⟨some 3, none, [], none⟩] rfl rfl
    (by decide) (by simp) rfl
  exact ⟨h.1, h.2.2.2⟩

/-- Claim C2: if the per-document step raises on one document of the sorted
list, the loop catches it, prints a message carrying that document's id,
skips only that document, and the body still contains the items of all the
other documents. -/
theorem claim_C2 (today : Nat)
    (step : Doc → Except String (Option String)) (docs s1 s2 : List Doc)
    (d : Doc) (e : String)
    (hs : sortDocs today docs = .ok (s1 ++ d :: s2))
    (he : step d = .error e) :
    build_html_body_with today step docs =
      .ok (renderBody (linesOf step s1 ++ linesOf step s2),
        logsOf step s1 ++ errMsg d e :: logsOf step s2)
    ∧ errMsg d e = "Error processing document ID "
        ++ (match d.id with
            | none => "unknown"
            | some i => toString i) ++ ": " ++ e := by
  refine ⟨?_, rfl⟩
  have hloop : render_loop step (s1 ++ d :: s2) =
      (linesOf step s1 ++ linesOf step s2,
        logsOf step s1 ++ errMsg d e :: logsOf step s2) := by
    rw [render_loop_append]
    simp [render_loop, he, linesOf, logsOf]
  simp only [build_html_body_with, hs, hloop]

/-- Witness for C2: a step that raises `"boom"` exactly on the document with
id 1; the other document's item survives and the error is logged with the
id. -/
theorem claim_C2_witness :
    build_html_body_with 737485
      (fun doc =>
        if doc.id = some 1 then .error "boom" else .ok (some "item"))
      [⟨some 2, none, [], none⟩, ⟨some 1, none, [], none⟩] =
      .ok (renderBody ["item"],
        ["Error processing document ID 1: boom"]) := by
  have h := claim_C2 737485
    (fun doc =>
      if doc.id = some 1 then .error "boom" else .ok (some "item"))
    [⟨some 2, none, [], none⟩, ⟨some 1, none, [], none⟩]
    [⟨some 2, none, [], none⟩] [] ⟨some 1, none, [], none⟩ "boom"
    rfl rfl
  rw [h.1]
  rfl

/-- Claim C5: the tag pagination accumulates every successfully fetched
page's valid id→name pairs; with pairwise-distinct ids the result is the
union (concatenation) of all pages' contributions, and a failed fetch
mid-pagination ends the loop but returns everything collected so far. -/
theorem claim_C5 (pages : List TagPage) (rest : List (Option TagPage))
    (h1 : ∀ p ∈ pages.dropLast, p.next = true) :
    get_tags_map (pages.map some) = pages.foldl insert_page []
    ∧ ((∀ p ∈ pages, p.next = true) →
        get_tags_map (pages.map some ++ none :: rest) =
          pages.foldl insert_page [])
    ∧ (((pages.flatMap page_pairs).map Prod.fst).Nodup →
        pages.foldl insert_page [] = pages.flatMap page_pairs) := by
  refine ⟨tags_loop_all_next pages [] h1,
    fun h2 => tags_loop_partial pages [] rest h2, fun h3 => ?_⟩
  have h4 := foldl_insert_page pages [] (by simpa using h3)
  simpa using h4

/-- Witness for C5: two pages with disjoint pairs followed by a failed
fetch — the union of both pages survives. -/
theorem claim_C5_witness :
    get_tags_map [some ⟨[⟨some 1, some "a"⟩], true⟩,
        some ⟨[⟨some 2, some "b"⟩], true⟩, none] = [(1, "a"), (2, "b")]
    ∧ get_tags_map [some ⟨[⟨some 1, some "a"⟩], true⟩,
        some ⟨[⟨some 2, some "b"⟩], false⟩] = [(1, "a"), (2, "b")] := by
  have h := claim_C5 [⟨[⟨some 1, some "a"⟩], true⟩,
    ⟨[⟨some 2, some "b"⟩], true⟩] [] (by decide)
  have h' := claim_C5 [⟨[⟨some 1, some "a"⟩], true⟩,
    ⟨[⟨some 2, some "b"⟩], false⟩] [] (by decide)
  constructor
  · have h2 := h.2.1 (by decide)
    exact h2.trans (by decide)
  · exact h'.1.trans (by decide)

/-- Counterexample to claim C1 as stated: with one integer age and one
`"N/A"` age, the Python 3 sort compares an `int` with a `str` and raises a
`TypeError`, so `build_html_body` aborts instead of rendering the items with
the `"N/A"` document first. -/
theorem claim_C1_counterexample :
    sortDocs 737485 [⟨some 1, none, [], some "2020-01-01"⟩,
        ⟨some 2, none, [], none⟩] = .error ()
    ∧ build_html_body 737485 "u" (fun _ => none)
        [⟨some 1, none, [], some "2020-01-01"⟩, ⟨some 2, none, [], none⟩]
        [] [] = .error () :=
  ⟨rfl, rfl⟩

/-- Claim C1 as amended: when every age is an integer, `build_html_body`
renders the items of a descending-age stable permutation of the documents;
when every age is `"N/A"` the sort keeps the original order (all keys
compare equal); but when the list mixes integer ages and `"N/A"` ages the
sort raises a `TypeError` (int/str comparison), which the per-document error
handling does not cover, so `build_html_body` aborts. -/
theorem claim_C1_amended (today : Nat) (myurl : String)
    (details : Int → Option DetailResp) (corrs : List Correspondent)
    (tag_map : List (Int × String)) (docs : List Doc) :
    ((∀ d ∈ docs, isIntAge (ageKey today d) = true) →
      ∃ l, sortDocs today docs = .ok l ∧ l.Perm docs
        ∧ l.Pairwise (descAt today)
        ∧ build_html_body today myurl details docs corrs tag_map =
            .ok (renderBody (linesOf (concrete_step today myurl details
                (mkCorrMap corrs) tag_map) l),
              logsOf (concrete_step today myurl details (mkCorrMap corrs)
                tag_map) l))
    ∧ ((∀ d ∈ docs, ageKey today d = Age.na) →
        sortDocs today docs = .ok docs ∧ docs.Pairwise (descAt today))
    ∧ ((∃ a ∈ docs, isIntAge (ageKey today a) = true) →
        (∃ b ∈ docs, isIntAge (ageKey today b) = false) →
        sortDocs today docs = .error ()
        ∧ build_html_body today myurl details docs corrs tag_map =
            .error ()) := by
  refine ⟨?_, ?_, ?_⟩
  · intro h
    obtain ⟨l, hl, hperm, hpair⟩ := sortDocs_ok_int h
    refine ⟨l, hl, hperm, hpair, ?_⟩
    simp only [build_html_body, build_html_body_with, hl]
    rfl
  · intro h
    have hs : sortAux today docs [] = .ok ([] ++ docs) :=
      sortAux_na (by simpa using h)
    exact ⟨by simpa [sortDocs] using hs, pairwise_descAt_na h⟩
  · intro hint hna
    have herr : sortDocs today docs = .error () :=
      sortDocs_error_of_mixed hint hna
    refine ⟨herr, ?_⟩
    simp only [build_html_body, build_html_body_with, herr]

/-- Witness for the amended C1: a homogeneous integer-age list sorts
descending, and a mixed int/`"N/A"` list makes `build_html_body` abort. -/
theorem claim_C1_witness :
    (∃ l, sortDocs 737485 [⟨some 1, none, [], some "2020-02-01"⟩,
          ⟨some 2, none, [], some "2020-01-01"⟩] = .ok l
      ∧ l.Perm [⟨some 1, none, [], some "2020-02-01"⟩,
          ⟨some 2, none, [], some "2020-01-01"⟩]
      ∧ l.Pairwise (descAt 737485)
      ∧ build_html_body 737485 "u" (fun _ => none)
          [⟨some 1, none, [], some "2020-02-01"⟩,
            ⟨some 2, none, [], some "2020-01-01"⟩] [] [] =
          .ok (renderBody (linesOf (concrete_step 737485 "u" (fun _ => none)
              (mkCorrMap []) []) l),
            logsOf (concrete_step 737485 "u" (fun _ => none) (mkCorrMap [])
              []) l))
    ∧ sortDocs 737485 [⟨some 3, none, [], some "2020-01-01"⟩,
        ⟨some 4, none, [], none⟩] = .error ()
    ∧ build_html_body 737485 "u" (fun _ => none)
        [⟨some 3, none, [], some "2020-01-01"⟩, ⟨some 4, none, [], none⟩]
        [] [] = .error () := by
  refine ⟨?_, ?_⟩
  · exact (claim_C1_amended 737485 "u" (fun _ => none) [] []
      [⟨some 1, none, [], some "2020-02-01"⟩,
        ⟨some 2, none, [], some "2020-01-01"⟩]).1 (by decide)
  · exact (claim_C1_amended 737485 "u" (fun _ => none) [] []
      [⟨some 3, none, [], some "2020-01-01"⟩,
        ⟨some 4, none, [], none⟩]).2.2 (by decide) (by decide)

end PaperlessEmail
